import Mathlib

/-!
Verification of the tiered-storage handle (`src/accounts-db/src/tiered_storage.rs`)
and the transaction-state machine
(`src/core/src/banking_stage/transaction_scheduler/transaction_state.rs`)
against their natural-language specification.

The handle logic (`TieredStorage`: `new_writable`, `new_readonly`,
`write_accounts`, `reader`, `is_read_only`, `file_size`, `Drop`) is embedded
directly from the Rust source.  The hot-format writer, the reader internals and
the footer layout live in modules (`hot.rs`, `readable.rs`, `footer.rs`) that
are not part of the sources; those parts are modelled from the specification
and are marked as such in their doc comments.
-/

namespace SolanaSpec

/-- File paths, as used by `TieredStorage::path`. -/
abbrev Path := String

/-- An input account record: the per-entry view the batch provider yields to
the writer.  Addresses, owners and hashes are 32-byte values abstracted as
naturals; payload bytes as a list of naturals. -/
structure AccountRecord where
  address : Nat
  lamports : Nat
  owner : Nat
  data : List Nat
  executable : Bool
  hash : Nat
  write_version : Nat
deriving DecidableEq, Repr

/-- `TieredStorageFormat` from `tiered_storage.rs` lines 41-47: the format
descriptor with a metadata entry size and four encoding discriminants.  The
discriminant enums live in the absent `footer.rs`/`hot.rs`/`index.rs`/
`owners.rs` modules, so each is abstracted as a numeric id. -/
structure TieredStorageFormat where
  meta_entry_size : Nat
  account_meta_format : Nat
  owners_block_format : Nat
  index_block_format : Nat
  account_block_format : Nat
deriving DecidableEq, Repr

/-- Modelled from the spec: `HOT_FORMAT` is defined in the absent `hot.rs`.
The spec only requires it to be one fixed descriptor the reader understands;
its encoding ids are taken to be the 0 discriminants and its meta entry size a
fixed constant. -/
def HOT_FORMAT : TieredStorageFormat :=
  { meta_entry_size := 136
    account_meta_format := 0
    owners_block_format := 0
    index_block_format := 0
    account_block_format := 0 }

/-- `TieredStorageError` from the absent `error.rs`; the variants are the ones
constructed or matched in `tiered_storage.rs` (`AttemptToUpdateReadOnly`,
`UnknownFormat`, `Unsupported`) plus the I/O and validation kinds named by the
spec's error-handling section. -/
inductive TieredStorageError where
  | AttemptToUpdateReadOnly (path : Path)
  | UnknownFormat (path : Path)
  | Unsupported
  | IoError (path : Path)
  | InvalidMagicNumber (path : Path)
deriving DecidableEq, Repr

/-- Modelled from the spec: a stored record inside the account-data block of a
hot-format file (`hot.rs` is absent).  The owner is stored as an index into
the owners block; address, balance, payload, executable flag, hash and write
version are stored inline (spec section 3, "Stored Record"). -/
structure StoredRecord where
  address : Nat
  lamports : Nat
  owner_index : Nat
  data : List Nat
  executable : Bool
  hash : Nat
  write_version : Nat
deriving DecidableEq, Repr

/-- Modelled from the spec: the fixed trailer of a file (`footer.rs` is
absent).  Format ids, meta entry size, block offsets and lengths, the record
count, and the trailing magic constant (spec sections 3 and 6). -/
structure Footer where
  meta_entry_size : Nat
  account_meta_format : Nat
  owners_block_format : Nat
  index_block_format : Nat
  account_block_format : Nat
  owners_block_offset : Nat
  owners_block_length : Nat
  index_block_offset : Nat
  index_block_length : Nat
  account_entry_count : Nat
deriving DecidableEq, Repr

/-- Modelled from the spec: the fixed magic constant closing every file
(spec: "closed by a fixed magic constant"). -/
def MAGIC_NUMBER : Nat := 0x501A2AB5

/-- Modelled from the spec: a well-formed on-disk file, structured as
`[data block][owners block][index block][footer][magic]` (spec section 6).
The index block is implicit: one entry per data-block record, in write
order. -/
structure HotFile where
  data_block : List StoredRecord
  owners_block : List Nat
  footer : Footer
  magic : Nat
deriving DecidableEq, Repr

/-- Modelled from the spec: the encoded size in bytes of one stored record —
a fixed-size metadata entry plus the payload bytes (spec section 4.2). -/
def storedRecordSize (fmt_meta_entry_size : Nat) (r : StoredRecord) : Nat :=
  fmt_meta_entry_size + r.data.length

/-- Modelled from the spec: byte sizes of the trailer components.  The footer
holds the meta-record size (8 bytes), four format-id discriminants, two
offset+length pairs (8 bytes each) and the record count (8 bytes); the magic
number is 8 bytes (spec section 6; the discriminant width is not given by the
spec and is taken as 2 bytes each). -/
def FOOTER_SIZE : Nat := 8 + 4 * 2 + (8 + 8) + (8 + 8) + 8

/-- Modelled from the spec: size of the trailing magic number in bytes. -/
def MAGIC_NUMBER_SIZE : Nat := 8

/-- Modelled from the spec: byte size of one owners-block entry (a 32-byte
address) and of one index-block entry (an 8-byte offset). -/
def OWNER_ENTRY_SIZE : Nat := 32

/-- Modelled from the spec: byte size of one index-block entry. -/
def INDEX_ENTRY_SIZE : Nat := 8

/-- Modelled from the spec: total byte size of a well-formed file, summing the
data block, owners block, index block, footer and magic number. -/
def fileSizeBytes (f : HotFile) : Nat :=
  (f.data_block.map (storedRecordSize f.footer.meta_entry_size)).sum
    + f.owners_block.length * OWNER_ENTRY_SIZE
    + f.data_block.length * INDEX_ENTRY_SIZE
    + FOOTER_SIZE + MAGIC_NUMBER_SIZE

/-- State of one filesystem path: no file, a well-formed file, or a file that
exists but cannot be accessed (an operational I/O failure such as a
permission error). -/
inductive FileState where
  | absent
  | present (f : HotFile)
  | inaccessible
deriving Repr

/-- The filesystem: a map from paths to file states. -/
def FileSystem := Path → FileState

/-- The empty filesystem. -/
def emptyFS : FileSystem := fun _ => FileState.absent

/-- Point update of the filesystem at one path. -/
def FileSystem.update (fs : FileSystem) (p : Path) (st : FileState) : FileSystem :=
  fun q => if q = p then st else fs q

/-- Modelled from the spec: the write-pass-only reverse lookup of an owner
address in the owners table built so far ("look up the address in an
in-memory, write-pass-only reverse table", spec section 4.2). -/
def ownerIndexOf : List Nat → Nat → Option Nat
  | [], _ => none
  | b :: rest, a => if b = a then some 0 else (ownerIndexOf rest a).map (· + 1)

/-- Modelled from the spec: owner deduplication for one record — if the
address was already seen, reuse its index; otherwise append it to the owners
table and assign the next index (spec section 4.2). -/
def ownersInsert (owners : List Nat) (a : Nat) : List Nat × Nat :=
  match ownerIndexOf owners a with
  | some i => (owners, i)
  | none => (owners ++ [a], owners.length)

/-- Modelled from the spec: the writer's loop over the batch (`hot.rs` is
absent).  For each entry it deduplicates the owner, then appends the encoded
metadata + payload to the data block; the accumulated owners table threads
through left to right (spec section 4.2). -/
def writeRecords : List AccountRecord → List Nat → List StoredRecord × List Nat
  | [], owners => ([], owners)
  | r :: rest, owners =>
    let oi := ownersInsert owners r.owner
    let tail := writeRecords rest oi.1
    ({ address := r.address
       lamports := r.lamports
       owner_index := oi.2
       data := r.data
       executable := r.executable
       hash := r.hash
       write_version := r.write_version } :: tail.1, tail.2)

/-- Modelled from the spec: the footer the writer computes after the loop,
recording the selected format, the block offsets and lengths, and the record
count (spec sections 4.2 and 6). -/
def buildFooter (fmt : TieredStorageFormat) (recs : List StoredRecord)
    (owners : List Nat) : Footer :=
  let data_len := (recs.map (storedRecordSize fmt.meta_entry_size)).sum
  { meta_entry_size := fmt.meta_entry_size
    account_meta_format := fmt.account_meta_format
    owners_block_format := fmt.owners_block_format
    index_block_format := fmt.index_block_format
    account_block_format := fmt.account_block_format
    owners_block_offset := data_len
    owners_block_length := owners.length * OWNER_ENTRY_SIZE
    index_block_offset := data_len + owners.length * OWNER_ENTRY_SIZE
    index_block_length := recs.length * INDEX_ENTRY_SIZE
    account_entry_count := recs.length }

/-- Modelled from the spec: the complete single write pass of
`HotStorageWriter::write_accounts` (`hot.rs` is absent).  It iterates the
batch from the start index (`skip`) to its end, then emits owners table,
index table, footer and magic number (spec section 4.2). -/
def hotWrite (batch : List AccountRecord) (skip : Nat)
    (fmt : TieredStorageFormat) : HotFile :=
  let written := writeRecords (batch.drop skip) []
  { data_block := written.1
    owners_block := written.2
    footer := buildFooter fmt written.1 written.2
    magic := MAGIC_NUMBER }

/-- `StoredAccountInfo` (the per-record placement result returned by the
write pass): the byte offset at which the record was stored.  Its fields live
outside the sources; the offset is the one piece of placement data the spec
names ("describing where that record was physically stored"). -/
structure StoredAccountInfo where
  offset : Nat
deriving DecidableEq, Repr

/-- Modelled from the spec: placement results, one per written record in
input order — each record lands at the write cursor, i.e. after the encoded
sizes of the records before it (spec sections 4.2 and glossary). -/
def placementResults (fmt : TieredStorageFormat) :
    List StoredRecord → Nat → List StoredAccountInfo
  | [], _ => []
  | r :: rest, cursor =>
    { offset := cursor } :: placementResults fmt rest (cursor + storedRecordSize fmt.meta_entry_size r)

/-- A record as decoded by the reader: the owner index has been resolved
through the owners block back to an owner address. -/
structure DecodedRecord where
  address : Nat
  lamports : Nat
  owner : Nat
  data : List Nat
  executable : Bool
  hash : Nat
deriving DecidableEq, Repr

/-- `TieredStorageReader` (`readable.rs` is absent): a validated, memory-mapped
view of one sealed file. -/
structure TieredStorageReader where
  file : HotFile
deriving Repr

/-- Modelled from the spec: opening a path as a reader — the file must exist,
be accessible, and end in the exact magic constant, otherwise a typed
validation or I/O error is returned and the file is never exposed (spec
section 4.3). -/
def readerFromPath (fs : FileSystem) (p : Path) :
    Except TieredStorageError TieredStorageReader :=
  match fs p with
  | FileState.absent => Except.error (TieredStorageError.IoError p)
  | FileState.inaccessible => Except.error (TieredStorageError.IoError p)
  | FileState.present f =>
    if f.magic = MAGIC_NUMBER then Except.ok { file := f }
    else Except.error (TieredStorageError.InvalidMagicNumber p)

/-- `record_count()`: the count stored in the footer (spec section 4.3). -/
def TieredStorageReader.record_count (r : TieredStorageReader) : Nat :=
  r.file.footer.account_entry_count

/-- Modelled from the spec: `get_record(position)` (`readable.rs` is absent).
When `position` is at or past the record count it returns the empty/terminal
result before touching the mapped data; otherwise it decodes the index entry
at `position`, decodes the record at the referenced offset, resolves the
owner index through the owners block, and returns the decoded record with
the next position (spec section 4.3). -/
def TieredStorageReader.get_record (r : TieredStorageReader) (position : Nat) :
    Option (DecodedRecord × Nat) :=
  if position < r.record_count then
    match r.file.data_block[position]? with
    | some sr =>
      some ({ address := sr.address
              lamports := sr.lamports
              owner := r.file.owners_block.getD sr.owner_index 0
              data := sr.data
              executable := sr.executable
              hash := sr.hash }, position + 1)
    | none => none
  else
    none

/-- `TieredStorage` from `tiered_storage.rs` lines 49-53: a path plus a
write-once reader cell (`OnceLock<TieredStorageReader>`, modelled as an
`Option` threaded through each call). -/
structure TieredStorage where
  reader_cell : Option TieredStorageReader
  path : Path

/-- `TieredStorage::new_writable` (lines 72-77): an empty reader cell and the
given path; no filesystem I/O is performed. -/
def TieredStorage.new_writable (p : Path) : TieredStorage :=
  { reader_cell := none, path := p }

/-- `TieredStorage::new_readonly` (lines 81-87): opens the path as a reader
and stores it in the cell; a failure of `TieredStorageReader::new_from_path`
propagates. -/
def TieredStorage.new_readonly (fs : FileSystem) (p : Path) :
    Except TieredStorageError TieredStorage :=
  match readerFromPath fs p with
  | Except.ok r => Except.ok { reader_cell := some r, path := p }
  | Except.error e => Except.error e

/-- `TieredStorage::reader` (lines 139-141): the content of the cell. -/
def TieredStorage.reader (s : TieredStorage) : Option TieredStorageReader :=
  s.reader_cell

/-- `TieredStorage::is_read_only` (lines 144-146). -/
def TieredStorage.is_read_only (s : TieredStorage) : Bool :=
  s.reader_cell.isSome

/-- `TieredStorage::write_accounts` (lines 100-135).  If the handle is already
read-only it fails with `AttemptToUpdateReadOnly` carrying the path.  If the
format is the hot format, the hot writer materializes the file, a reader is
opened over it and installed in the cell, and the placement results are
returned.  Any other format fails with `UnknownFormat` carrying the path,
with no I/O.  The result is the returned value together with the updated
handle and filesystem. -/
def TieredStorage.write_accounts (s : TieredStorage) (fs : FileSystem)
    (accounts : List AccountRecord) (skip : Nat) (format : TieredStorageFormat) :
    Except TieredStorageError (List StoredAccountInfo) × TieredStorage × FileSystem :=
  if s.is_read_only then
    (Except.error (TieredStorageError.AttemptToUpdateReadOnly s.path), s, fs)
  else if format = HOT_FORMAT then
    let file := hotWrite accounts skip format
    let fs' := fs.update s.path (FileState.present file)
    let result := Except.ok (placementResults format file.data_block 0)
    match readerFromPath fs' s.path with
    | Except.ok r => (result, { s with reader_cell := some r }, fs')
    | Except.error e => (Except.error e, s, fs')
  else
    (Except.error (TieredStorageError.UnknownFormat s.path), s, fs)

/-- `TieredStorage::file_size` (lines 149-156): open the file and take its
metadata length, turning every failure into 0 via `unwrap_or(0)`; the
function always returns `Ok`. -/
def TieredStorage.file_size (s : TieredStorage) (fs : FileSystem) :
    Except TieredStorageError Nat :=
  let opened : Except TieredStorageError Nat :=
    match fs s.path with
    | FileState.present f => Except.ok (fileSizeBytes f)
    | FileState.absent => Except.error (TieredStorageError.IoError s.path)
    | FileState.inaccessible => Except.error (TieredStorageError.IoError s.path)
  Except.ok (opened.toOption.getD 0)

/-- `fs::remove_file`: succeeds only when a file is present at the path. -/
def removeFile (fs : FileSystem) (p : Path) : Except TieredStorageError FileSystem :=
  match fs p with
  | FileState.present _ => Except.ok (fs.update p FileState.absent)
  | FileState.absent => Except.error (TieredStorageError.IoError p)
  | FileState.inaccessible => Except.error (TieredStorageError.IoError p)

/-- `impl Drop for TieredStorage` (lines 55-64): on destruction the backing
file is removed; if removal fails the process panics (modelled as `none`). -/
def TieredStorage.dropStorage (s : TieredStorage) (fs : FileSystem) :
    Option FileSystem :=
  match removeFile fs s.path with
  | Except.ok fs' => some fs'
  | Except.error _ => none

/-- `ManuallyDrop` around a handle (the explicit skip-cleanup escape hatch
used in the tests): the destructor does not run, the filesystem is
untouched. -/
def TieredStorage.dropSkipCleanup (_s : TieredStorage) (fs : FileSystem) :
    FileSystem :=
  fs

/-! ### Interleaving model of concurrent `write_accounts` calls

`write_accounts` (lines 100-135) performs, in order: the `is_read_only()`
check (an atomic read of the `OnceLock`, line 112), the write pass
(`HotStorageWriter::new` + `write_accounts`, lines 120-121), and the
install (`self.reader.set(...).unwrap()`, lines 127-129 — `set` is the
`OnceLock`'s atomic one-shot store, whose failure makes the `.unwrap()`
panic).  Two callers racing on one handle are modelled as two threads, each
stepping through these phases under an arbitrary interleaving, with the
shared `OnceLock` cell and the filesystem as shared state. -/

/-- Program counter of one thread inside `write_accounts` (hot format). -/
inductive WritePC where
  | atCheck
  | atWrite
  | atInstall
  | returnedError (e : TieredStorageError)
  | returnedOk
  | panicked
deriving DecidableEq, Repr

/-- Shared state of two threads racing on one handle: the `OnceLock` cell,
the filesystem, and both program counters. -/
structure RaceState where
  cell : Option TieredStorageReader
  fs : FileSystem
  pc1 : WritePC
  pc2 : WritePC

/-- One atomic step of one thread of `write_accounts` on path `p` with batch
`b` and start index `k`, following the source order: check, write, install. -/
def writeStep (p : Path) (b : List AccountRecord) (k : Nat)
    (cell : Option TieredStorageReader) (fs : FileSystem) (pc : WritePC) :
    Option TieredStorageReader × FileSystem × WritePC :=
  match pc with
  | WritePC.atCheck =>
    if cell.isSome then
      (cell, fs, WritePC.returnedError (TieredStorageError.AttemptToUpdateReadOnly p))
    else
      (cell, fs, WritePC.atWrite)
  | WritePC.atWrite =>
    (cell, fs.update p (FileState.present (hotWrite b k HOT_FORMAT)), WritePC.atInstall)
  | WritePC.atInstall =>
    match readerFromPath fs p with
    | Except.error e => (cell, fs, WritePC.returnedError e)
    | Except.ok r =>
      match cell with
      | none => (some r, fs, WritePC.returnedOk)
      | some _ => (cell, fs, WritePC.panicked)
  | pc => (cell, fs, pc)

/-- Advance the thread selected by `t` (`true` = thread 1). -/
def raceStep (p : Path) (b : List AccountRecord) (k : Nat)
    (st : RaceState) (t : Bool) : RaceState :=
  if t then
    let r := writeStep p b k st.cell st.fs st.pc1
    { cell := r.1, fs := r.2.1, pc1 := r.2.2, pc2 := st.pc2 }
  else
    let r := writeStep p b k st.cell st.fs st.pc2
    { cell := r.1, fs := r.2.1, pc1 := st.pc1, pc2 := r.2.2 }

/-- Run a schedule (a list of thread choices) from a state. -/
def raceRun (p : Path) (b : List AccountRecord) (k : Nat)
    (st : RaceState) : List Bool → RaceState
  | [] => st
  | t :: rest => raceRun p b k (raceStep p b k st t) rest

/-- Initial race state: the cell empty, both threads about to check. -/
def raceInit (fs : FileSystem) : RaceState :=
  { cell := none, fs := fs, pc1 := WritePC.atCheck, pc2 := WritePC.atCheck }

/-- Number of threads that returned successfully (installed the reader). -/
def okCount (st : RaceState) : Nat :=
  (if st.pc1 = WritePC.returnedOk then 1 else 0)
    + (if st.pc2 = WritePC.returnedOk then 1 else 0)

/-! ### Transaction state machine

Embedded from
`src/core/src/banking_stage/transaction_scheduler/transaction_state.rs`.
`ComputeBudgetDetails` and `TransactionCost` come from crates outside the
sources; they are modelled with exactly the shape the source manipulates
(the two compute-budget fields and the `SimpleVote` variant appear literally
in `TransactionState::take`), with remaining payloads abstracted as
naturals. -/

namespace Banking

/-- `ComputeBudgetDetails` with the two fields the source constructs. -/
structure ComputeBudgetDetails where
  compute_unit_price : Nat
  compute_unit_limit : Nat
deriving DecidableEq, Repr

/-- `TransactionCost`: the `SimpleVote` variant the source constructs, plus
the usage-cost variant with its details abstracted. -/
inductive TransactionCost where
  | SimpleVote (writable_accounts : List Nat)
  | Transaction (usage_cost_details : Nat)
deriving DecidableEq, Repr

/-- `SanitizedTransactionTTL` (lines 8-11): a transaction tied to a max age
slot; the transaction itself is abstracted. -/
structure SanitizedTransactionTTL where
  transaction : Nat
  max_age_slot : Nat
deriving DecidableEq, Repr

/-- `TransactionState` (lines 33-47): `Unprocessed` holds the transaction
plus bookkeeping, `Pending` holds only the bookkeeping. -/
inductive TransactionState where
  | Unprocessed (transaction_ttl : SanitizedTransactionTTL)
      (compute_budget_details : ComputeBudgetDetails)
      (transaction_cost : TransactionCost) (forwarded : Bool)
  | Pending (compute_budget_details : ComputeBudgetDetails)
      (transaction_cost : TransactionCost) (forwarded : Bool)
deriving DecidableEq, Repr

/-- `TransactionState::new` (lines 51-62): starts `Unprocessed` with
`forwarded: false`. -/
def TransactionState.new (transaction_ttl : SanitizedTransactionTTL)
    (compute_budget_details : ComputeBudgetDetails)
    (transaction_cost : TransactionCost) : TransactionState :=
  TransactionState.Unprocessed transaction_ttl compute_budget_details
    transaction_cost false

/-- `TransactionState::compute_budget_details` (lines 65-76). -/
def TransactionState.compute_budget_details : TransactionState → ComputeBudgetDetails
  | TransactionState.Unprocessed _ cbd _ _ => cbd
  | TransactionState.Pending cbd _ _ => cbd

/-- `TransactionState::transaction_cost` (lines 79-88). -/
def TransactionState.transaction_cost : TransactionState → TransactionCost
  | TransactionState.Unprocessed _ _ tc _ => tc
  | TransactionState.Pending _ tc _ => tc

/-- `TransactionState::forwarded` (lines 96-101). -/
def TransactionState.forwarded : TransactionState → Bool
  | TransactionState.Unprocessed _ _ _ f => f
  | TransactionState.Pending _ _ f => f

/-- `TransactionState::set_forwarded` (lines 104-109). -/
def TransactionState.set_forwarded : TransactionState → TransactionState
  | TransactionState.Unprocessed ttl cbd tc _ =>
    TransactionState.Unprocessed ttl cbd tc true
  | TransactionState.Pending cbd tc _ => TransactionState.Pending cbd tc true

/-- `TransactionState::transition_to_pending` (lines 118-137): from
`Unprocessed`, moves to `Pending` carrying the bookkeeping over and returns
the transaction; from `Pending` it panics (modelled as `none`). -/
def TransactionState.transition_to_pending :
    TransactionState → Option (SanitizedTransactionTTL × TransactionState)
  | TransactionState.Unprocessed ttl cbd tc f =>
    some (ttl, TransactionState.Pending cbd tc f)
  | TransactionState.Pending _ _ _ => none

/-- `TransactionState::transition_to_unprocessed` (lines 145-161): from
`Pending`, moves back to `Unprocessed` with the supplied transaction; from
`Unprocessed` it panics (modelled as `none`). -/
def TransactionState.transition_to_unprocessed
    (transaction_ttl : SanitizedTransactionTTL) :
    TransactionState → Option TransactionState
  | TransactionState.Unprocessed _ _ _ _ => none
  | TransactionState.Pending cbd tc f =>
    some (TransactionState.Unprocessed transaction_ttl cbd tc f)

end Banking

/-- A format descriptor that is not the hot format (distinct
`account_meta_format` discriminant), used to exercise the unknown-format
branch of `write_accounts`. -/
def COLD_FORMAT : TieredStorageFormat :=
  { HOT_FORMAT with account_meta_format := 1 }

/-- The filesystem in which every path exists but cannot be accessed (for
instance, a permission failure on every open). -/
def inaccessibleFS : FileSystem := fun _ => FileState.inaccessible

/-- The interleaving of two racing `write_accounts` calls in which both pass
the `is_read_only` check before either installs: thread 1 checks, thread 2
checks, thread 1 writes and installs, thread 2 writes and installs. -/
def raceSchedule : List Bool := [true, false, true, true, false, false]

/-- Sample compute-budget details for concrete instantiations. -/
def sampleCBD : Banking.ComputeBudgetDetails :=
  { compute_unit_price := 15, compute_unit_limit := 9 }

/-- Sample transaction cost for concrete instantiations. -/
def sampleCost : Banking.TransactionCost :=
  Banking.TransactionCost.SimpleVote [3]

/-- Sample transaction-with-TTL for concrete instantiations. -/
def sampleTTL : Banking.SanitizedTransactionTTL :=
  { transaction := 1, max_age_slot := 2 }

/-! ### Lemmas about the owner table and the write pass -/

/-- A successful reverse lookup returns an index holding the address. -/
lemma ownerIndexOf_getElem : ∀ {o : List Nat} {a i : Nat},
    ownerIndexOf o a = some i → o[i]? = some a := by
  intro o
  induction o with
  | nil => intro a i h; simp [ownerIndexOf] at h
  | cons b rest ih =>
    intro a i h
    by_cases hb : b = a
    · simp [ownerIndexOf, hb] at h
      subst h
      simp [hb]
    · simp [ownerIndexOf, hb] at h
      obtain ⟨j, hj, rfl⟩ := h
      simpa using ih hj

/-- Owner insertion only ever appends to the owners table. -/
lemma ownersInsert_grow (o : List Nat) (a : Nat) :
    ∃ t, (ownersInsert o a).1 = o ++ t := by
  unfold ownersInsert
  cases h : ownerIndexOf o a with
  | some i => exact ⟨[], by simp⟩
  | none => exact ⟨[a], by simp⟩

/-- The index assigned by owner insertion holds the inserted address. -/
lemma ownersInsert_getElem (o : List Nat) (a : Nat) :
    (ownersInsert o a).1[(ownersInsert o a).2]? = some a := by
  unfold ownersInsert
  cases h : ownerIndexOf o a with
  | some i => exact ownerIndexOf_getElem h
  | none => exact List.getElem?_concat_length o a

/-- The write pass only ever appends to the owners table it threads. -/
lemma writeRecords_owners_grow :
    ∀ (batch : List AccountRecord) (o : List Nat),
      ∃ t, (writeRecords batch o).2 = o ++ t := by
  intro batch
  induction batch with
  | nil => intro o; exact ⟨[], by simp [writeRecords]⟩
  | cons r rest ih =>
    intro o
    obtain ⟨t1, h1⟩ := ownersInsert_grow o r.owner
    obtain ⟨t2, h2⟩ := ih (ownersInsert o r.owner).1
    refine ⟨t1 ++ t2, ?_⟩
    simp only [writeRecords]
    rw [h2, h1, List.append_assoc]

/-- The write pass emits one stored record per batch entry. -/
lemma writeRecords_length :
    ∀ (batch : List AccountRecord) (o : List Nat),
      (writeRecords batch o).1.length = batch.length := by
  intro batch
  induction batch with
  | nil => intro o; simp [writeRecords]
  | cons r rest ih => intro o; simp [writeRecords, ih]

/-- Entries already present survive later appends unchanged. -/
lemma getElem?_stable {o w : List Nat} {i : Nat} {a : Nat}
    (hgrow : ∃ t, w = o ++ t) (h : o[i]? = some a) : w[i]? = some a := by
  obtain ⟨t, rfl⟩ := hgrow
  obtain ⟨hlt, _⟩ := List.getElem?_eq_some_iff.mp h
  rw [List.getElem?_append_left hlt]
  exact h

/-- Core write-pass correctness: the `i`-th stored record carries the `i`-th
batch entry's fields verbatim, and its owner index resolves through the
final owners table back to the entry's owner address. -/
lemma writeRecords_getElem :
    ∀ (batch : List AccountRecord) (o : List Nat) (i : Nat) (r : AccountRecord),
      batch[i]? = some r →
      ∃ sr, (writeRecords batch o).1[i]? = some sr ∧
        sr.address = r.address ∧ sr.lamports = r.lamports ∧ sr.data = r.data ∧
        sr.executable = r.executable ∧ sr.hash = r.hash ∧
        sr.write_version = r.write_version ∧
        (writeRecords batch o).2[sr.owner_index]? = some r.owner := by
  intro batch
  induction batch with
  | nil => intro o i r h; simp at h
  | cons hd rest ih =>
    intro o i r h
    cases i with
    | zero =>
      simp at h
      subst h
      refine ⟨{ address := hd.address, lamports := hd.lamports,
                owner_index := (ownersInsert o hd.owner).2, data := hd.data,
                executable := hd.executable, hash := hd.hash,
                write_version := hd.write_version },
              by simp [writeRecords], rfl, rfl, rfl, rfl, rfl, rfl, ?_⟩
      have hown := ownersInsert_getElem o hd.owner
      have hgrow := writeRecords_owners_grow rest (ownersInsert o hd.owner).1
      simp only [writeRecords]
      exact getElem?_stable hgrow hown
    | succ n =>
      simp at h
      obtain ⟨sr, hsr, hrest⟩ := ih (ownersInsert o hd.owner).1 n r h
      exact ⟨sr, by simpa [writeRecords] using hsr, hrest⟩

/-- One placement result per written record. -/
lemma placementResults_length (fmt : TieredStorageFormat) :
    ∀ (recs : List StoredRecord) (cursor : Nat),
      (placementResults fmt recs cursor).length = recs.length := by
  intro recs
  induction recs with
  | nil => intro cursor; simp [placementResults]
  | cons r rest ih => intro cursor; simp [placementResults, ih]

/-- `getD` through a successful `getElem?`. -/
lemma getD_of_getElem? {l : List Nat} {n a d : Nat} (h : l[n]? = some a) :
    l.getD n d = a := by
  simp [List.getD_eq_getElem?_getD, h]

/-- The writer always closes the file with the magic constant. -/
lemma hotWrite_magic (batch : List AccountRecord) (skip : Nat)
    (fmt : TieredStorageFormat) : (hotWrite batch skip fmt).magic = MAGIC_NUMBER :=
  rfl

/-- The footer's record count is the number of records written. -/
lemma hotWrite_count (batch : List AccountRecord) (skip : Nat)
    (fmt : TieredStorageFormat) :
    (hotWrite batch skip fmt).footer.account_entry_count = (batch.drop skip).length := by
  simp [hotWrite, buildFooter, writeRecords_length]

/-- Opening the path just written yields a reader over the written file. -/
lemma readerFromPath_after_write (fs : FileSystem) (p : Path) (f : HotFile)
    (hmagic : f.magic = MAGIC_NUMBER) :
    readerFromPath (fs.update p (FileState.present f)) p = Except.ok { file := f } := by
  simp [readerFromPath, FileSystem.update, hmagic]

/-- Evaluation of `write_accounts` on a not-yet-sealed handle with the hot
format: the file is materialized, a reader over it is installed, and the
placement results are returned. -/
lemma write_accounts_hot (s : TieredStorage) (fs : FileSystem)
    (batch : List AccountRecord) (skip : Nat) (h : s.reader_cell = none) :
    s.write_accounts fs batch skip HOT_FORMAT =
      (Except.ok (placementResults HOT_FORMAT (hotWrite batch skip HOT_FORMAT).data_block 0),
       { s with reader_cell := some { file := hotWrite batch skip HOT_FORMAT } },
       fs.update s.path (FileState.present (hotWrite batch skip HOT_FORMAT))) := by
  unfold TieredStorage.write_accounts
  simp [TieredStorage.is_read_only, h,
    readerFromPath_after_write fs s.path (hotWrite batch skip HOT_FORMAT)
      (hotWrite_magic batch skip HOT_FORMAT)]

/-- C1: for every batch of N records successfully written through
`write_accounts` (hot format, start index 0) and sealed, `record_count()` on
the installed reader equals N; iterating `get_record` from position 0 visits
positions 0..N-1 and at every position i yields a decoded record whose
address, balance, owner, payload bytes, executable flag and hash exactly
match input record i (so no input record is omitted and no decoded record
fails to match an input); past position N-1 iteration terminates. -/
theorem claim_C1_round_trip (p : Path) (fs : FileSystem)
    (batch : List AccountRecord) :
    ∃ r : TieredStorageReader,
      ((TieredStorage.new_writable p).write_accounts fs batch 0 HOT_FORMAT).2.1.reader
          = some r ∧
      (∃ infos, ((TieredStorage.new_writable p).write_accounts fs batch 0 HOT_FORMAT).1
          = Except.ok infos ∧ infos.length = batch.length) ∧
      r.record_count = batch.length ∧
      (∀ i rec, batch[i]? = some rec →
        ∃ d, r.get_record i = some (d, i + 1) ∧
          d.address = rec.address ∧ d.lamports = rec.lamports ∧
          d.owner = rec.owner ∧ d.data = rec.data ∧
          d.executable = rec.executable ∧ d.hash = rec.hash) ∧
      (∀ i, batch.length ≤ i → r.get_record i = none) := by
  have hout := write_accounts_hot (TieredStorage.new_writable p) fs batch 0 rfl
  have hcount : (TieredStorageReader.mk (hotWrite batch 0 HOT_FORMAT)).record_count
      = batch.length := by
    simp [TieredStorageReader.record_count, hotWrite_count]
  refine ⟨{ file := hotWrite batch 0 HOT_FORMAT }, ?_, ?_, hcount, ?_, ?_⟩
  · rw [hout]; rfl
  · refine ⟨placementResults HOT_FORMAT (hotWrite batch 0 HOT_FORMAT).data_block 0,
      by rw [hout], ?_⟩
    simp [placementResults_length, hotWrite, writeRecords_length]
  · intro i rec h
    have hdrop : (batch.drop 0)[i]? = some rec := by simpa using h
    obtain ⟨sr, hsr, ha, hl, hd, he, hh, hw, hown⟩ :=
      writeRecords_getElem (batch.drop 0) [] i rec hdrop
    have hi : i < batch.length := by
      obtain ⟨hlt, _⟩ := List.getElem?_eq_some_iff.mp h
      exact hlt
    refine ⟨{ address := sr.address, lamports := sr.lamports,
              owner := (hotWrite batch 0 HOT_FORMAT).owners_block.getD sr.owner_index 0,
              data := sr.data, executable := sr.executable, hash := sr.hash },
            ?_, ha, hl, ?_, hd, he, hh⟩
    · simp only [TieredStorageReader.get_record, hcount]
      rw [if_pos hi]
      have : (hotWrite batch 0 HOT_FORMAT).data_block[i]? = some sr := hsr
      rw [this]
    · exact getD_of_getElem? hown
  · intro i hle
    simp only [TieredStorageReader.get_record, hcount]
    rw [if_neg (Nat.not_lt.mpr hle)]

/-- C1 witness: the round-trip theorem applied to a concrete two-record
batch, with the per-position hypothesis discharged by `rfl`. -/
theorem claim_C1_round_trip_witness :
    ∃ r : TieredStorageReader, ∃ d : DecodedRecord,
      ((TieredStorage.new_writable "accounts").write_accounts emptyFS
          [{ address := 11, lamports := 5, owner := 7, data := [1, 2, 3],
             executable := true, hash := 99, write_version := 0 },
           { address := 12, lamports := 6, owner := 7, data := [4],
             executable := false, hash := 100, write_version := 1 }]
          0 HOT_FORMAT).2.1.reader = some r ∧
      r.record_count = 2 ∧
      r.get_record 1 = some (d, 2) ∧ d.address = 12 ∧ d.owner = 7 := by
  obtain ⟨r, hr, _, hcount, hget, _⟩ :=
    claim_C1_round_trip "accounts" emptyFS
      [{ address := 11, lamports := 5, owner := 7, data := [1, 2, 3],
         executable := true, hash := 99, write_version := 0 },
       { address := 12, lamports := 6, owner := 7, data := [4],
         executable := false, hash := 100, write_version := 1 }]
  obtain ⟨d, hd, ha, _, ho, _⟩ :=
    hget 1 { address := 12, lamports := 6, owner := 7, data := [4],
             executable := false, hash := 100, write_version := 1 } rfl
  exact ⟨r, d, hr, hcount, hd, ha, ho⟩

/-- C2 counterexample: a first `write_accounts` call with an unrecognized
format fails with `UnknownFormat` but does not seal the handle, so the
second call — made after a first call that did not succeed — returns `Ok`
rather than `AttemptToUpdateReadOnly`, refuting the claim for handles whose
first call failed. -/
theorem claim_C2_counterexample :
    ((TieredStorage.new_writable "accounts").write_accounts emptyFS [] 0
        COLD_FORMAT).1
      = Except.error (TieredStorageError.UnknownFormat "accounts") ∧
    (((TieredStorage.new_writable "accounts").write_accounts emptyFS [] 0
        COLD_FORMAT).2.1.write_accounts
      ((TieredStorage.new_writable "accounts").write_accounts emptyFS [] 0
        COLD_FORMAT).2.2 [] 0 HOT_FORMAT).1
      = Except.ok [] := by
  constructor
  · rfl
  · rfl

/-- C2 amended: for every handle whose first `write_accounts` call
*succeeded* (the reader was installed and the handle sealed), every
subsequent `write_accounts` call returns `AttemptToUpdateReadOnly` carrying
the handle's path and performs no filesystem writes, leaving both the handle
and every file's bytes unchanged.  (A first call that failed with
`UnknownFormat` does not seal the handle, as the counterexample shows.) -/
theorem claim_C2_second_write_fails (s : TieredStorage) (fs : FileSystem)
    (batch : List AccountRecord) (skip : Nat) (fmt : TieredStorageFormat)
    (infos : List StoredAccountInfo)
    (batch2 : List AccountRecord) (skip2 : Nat) (fmt2 : TieredStorageFormat)
    (hfirst : (s.write_accounts fs batch skip fmt).1 = Except.ok infos) :
    ((s.write_accounts fs batch skip fmt).2.1.write_accounts
        (s.write_accounts fs batch skip fmt).2.2 batch2 skip2 fmt2)
      = (Except.error (TieredStorageError.AttemptToUpdateReadOnly s.path),
         (s.write_accounts fs batch skip fmt).2.1,
         (s.write_accounts fs batch skip fmt).2.2) := by
  by_cases hro : s.is_read_only
  · exfalso
    unfold TieredStorage.write_accounts at hfirst
    rw [if_pos hro] at hfirst
    exact Except.noConfusion hfirst
  · by_cases hfmt : fmt = HOT_FORMAT
    · subst hfmt
      have hcell : s.reader_cell = none := by
        cases hc : s.reader_cell with
        | none => rfl
        | some r => exact absurd (by simp [TieredStorage.is_read_only, hc]) hro
      rw [write_accounts_hot s fs batch skip hcell]
      unfold TieredStorage.write_accounts
      rw [if_pos (by simp [TieredStorage.is_read_only])]
    · exfalso
      unfold TieredStorage.write_accounts at hfirst
      rw [if_neg hro, if_neg hfmt] at hfirst
      exact Except.noConfusion hfirst

/-- C2 witness: the amended theorem at a concrete successful first write,
with the success hypothesis discharged by `rfl`. -/
theorem claim_C2_second_write_fails_witness :
    (((TieredStorage.new_writable "accounts").write_accounts emptyFS [] 0
        HOT_FORMAT).2.1.write_accounts
      ((TieredStorage.new_writable "accounts").write_accounts emptyFS [] 0
        HOT_FORMAT).2.2 [] 0 HOT_FORMAT)
      = (Except.error (TieredStorageError.AttemptToUpdateReadOnly "accounts"),
         ((TieredStorage.new_writable "accounts").write_accounts emptyFS [] 0
            HOT_FORMAT).2.1,
         ((TieredStorage.new_writable "accounts").write_accounts emptyFS [] 0
            HOT_FORMAT).2.2) :=
  claim_C2_second_write_fails (TieredStorage.new_writable "accounts") emptyFS
    [] 0 HOT_FORMAT [] [] 0 HOT_FORMAT rfl

/-- C3: on a writable (not yet sealed) handle, `write_accounts` with any
format other than the hot format returns `UnknownFormat` carrying the
handle's path, and returns the handle and the filesystem unchanged — no
file is created or modified. -/
theorem claim_C3_unknown_format (s : TieredStorage) (fs : FileSystem)
    (batch : List AccountRecord) (skip : Nat) (fmt : TieredStorageFormat)
    (hcell : s.reader_cell = none) (hfmt : fmt ≠ HOT_FORMAT) :
    s.write_accounts fs batch skip fmt
      = (Except.error (TieredStorageError.UnknownFormat s.path), s, fs) := by
  unfold TieredStorage.write_accounts
  rw [if_neg (by simp [TieredStorage.is_read_only, hcell]), if_neg hfmt]

/-- C3 witness: a concrete unknown-format write on a fresh writable handle,
both hypotheses discharged by `rfl` and `decide`. -/
theorem claim_C3_unknown_format_witness :
    (TieredStorage.new_writable "accounts").write_accounts emptyFS [] 0
        COLD_FORMAT
      = (Except.error (TieredStorageError.UnknownFormat "accounts"),
         TieredStorage.new_writable "accounts", emptyFS) :=
  claim_C3_unknown_format (TieredStorage.new_writable "accounts") emptyFS
    [] 0 COLD_FORMAT rfl (by decide)

/-- C4: `reader()` returns `Some` exactly when the handle is sealed
(`is_read_only`); `new_writable` starts unsealed with no reader; a
successful `new_readonly` is sealed; a successful `write_accounts` seals the
handle; and once sealed the handle never changes again — every further
`write_accounts` returns the handle untouched (so the transition is one-way
and happens at most once). -/
theorem claim_C4_seal_state_machine (p : Path) (s : TieredStorage)
    (fs : FileSystem) (batch : List AccountRecord) (skip : Nat)
    (fmt : TieredStorageFormat) :
    (s.reader.isSome = s.is_read_only) ∧
    ((TieredStorage.new_writable p).reader = none ∧
      (TieredStorage.new_writable p).is_read_only = false) ∧
    (∀ s', TieredStorage.new_readonly fs p = Except.ok s' →
      s'.is_read_only = true) ∧
    (∀ infos, (s.write_accounts fs batch skip fmt).1 = Except.ok infos →
      (s.write_accounts fs batch skip fmt).2.1.is_read_only = true) ∧
    (s.is_read_only = true →
      s.write_accounts fs batch skip fmt
        = (Except.error (TieredStorageError.AttemptToUpdateReadOnly s.path),
           s, fs)) := by
  refine ⟨rfl, ⟨rfl, rfl⟩, ?_, ?_, ?_⟩
  · intro s' h
    unfold TieredStorage.new_readonly at h
    cases hr : readerFromPath fs p with
    | ok r =>
      rw [hr] at h
      cases h
      rfl
    | error e =>
      rw [hr] at h
      exact Except.noConfusion h
  · intro infos h
    by_cases hro : s.is_read_only
    · unfold TieredStorage.write_accounts at h
      rw [if_pos hro] at h
      exact Except.noConfusion h
    · by_cases hfmt : fmt = HOT_FORMAT
      · subst hfmt
        have hcell : s.reader_cell = none := by
          cases hc : s.reader_cell with
          | none => rfl
          | some r => exact absurd (by simp [TieredStorage.is_read_only, hc]) hro
        rw [write_accounts_hot s fs batch skip hcell]
        simp [TieredStorage.is_read_only]
      · unfold TieredStorage.write_accounts at h
        rw [if_neg hro, if_neg hfmt] at h
        exact Except.noConfusion h
  · intro hro
    unfold TieredStorage.write_accounts
    rw [if_pos hro]

/-- C4 witness: the state-machine theorem at concrete inputs — a fresh
writable handle is unsealed, and after a concrete successful write the
handle is sealed, with the success hypothesis discharged by `rfl`. -/
theorem claim_C4_seal_state_machine_witness :
    ((TieredStorage.new_writable "accounts").reader = none ∧
      (TieredStorage.new_writable "accounts").is_read_only = false) ∧
    ((TieredStorage.new_writable "accounts").write_accounts emptyFS [] 0
        HOT_FORMAT).2.1.is_read_only = true := by
  obtain ⟨_, hnew, _, hseal, _⟩ :=
    claim_C4_seal_state_machine "accounts"
      (TieredStorage.new_writable "accounts") emptyFS [] 0 HOT_FORMAT
  exact ⟨hnew, hseal [] rfl⟩

/-- C5: writing an empty batch on a writable handle succeeds with an empty
result, seals the handle, leaves a file whose byte size is exactly the
footer size plus the magic-number size, and the installed reader's
`record_count()` is 0. -/
theorem claim_C5_empty_batch (p : Path) (fs : FileSystem) :
    ((TieredStorage.new_writable p).write_accounts fs [] 0 HOT_FORMAT).1
        = Except.ok [] ∧
    ((TieredStorage.new_writable p).write_accounts fs [] 0
        HOT_FORMAT).2.1.is_read_only = true ∧
    (∃ r, ((TieredStorage.new_writable p).write_accounts fs [] 0
        HOT_FORMAT).2.1.reader = some r ∧ r.record_count = 0) ∧
    ((TieredStorage.new_writable p).write_accounts fs [] 0 HOT_FORMAT).2.2 p
        = FileState.present (hotWrite [] 0 HOT_FORMAT) ∧
    fileSizeBytes (hotWrite [] 0 HOT_FORMAT) = FOOTER_SIZE + MAGIC_NUMBER_SIZE ∧
    (((TieredStorage.new_writable p).write_accounts fs [] 0
        HOT_FORMAT).2.1.file_size
      ((TieredStorage.new_writable p).write_accounts fs [] 0 HOT_FORMAT).2.2)
        = Except.ok (FOOTER_SIZE + MAGIC_NUMBER_SIZE) := by
  have hout := write_accounts_hot (TieredStorage.new_writable p) fs [] 0 rfl
  refine ⟨by rw [hout]; rfl, by rw [hout]; rfl, ?_, ?_, rfl, ?_⟩
  · exact ⟨{ file := hotWrite [] 0 HOT_FORMAT }, by rw [hout]; rfl, rfl⟩
  · rw [hout]
    simp [FileSystem.update, TieredStorage.new_writable]
  · rw [hout]
    simp [TieredStorage.file_size, TieredStorage.new_writable, FileSystem.update,
      Except.toOption]
    rfl

/-- C6: `get_record(position)` for any position at or past `record_count()`
returns the terminal empty result; the position bound is checked before any
access into the mapped region. -/
theorem claim_C6_terminal_iteration (r : TieredStorageReader) (position : Nat)
    (h : r.record_count ≤ position) : r.get_record position = none := by
  unfold TieredStorageReader.get_record
  rw [if_neg (Nat.not_lt.mpr h)]

/-- C6 witness: the terminal-iteration theorem on the reader over a concrete
one-record file, at a position equal to its record count. -/
theorem claim_C6_terminal_iteration_witness :
    (TieredStorageReader.mk (hotWrite
        [{ address := 11, lamports := 5, owner := 7, data := [1, 2, 3],
           executable := true, hash := 99, write_version := 0 }] 0
        HOT_FORMAT)).get_record 1 = none :=
  claim_C6_terminal_iteration _ 1 (by decide)

/-- C7 counterexample: when opening the backing file fails with an
operational error that is not "file does not exist" (here: the file exists
but is inaccessible), `file_size()` still returns `Ok 0` — the failure is
silently swallowed by `unwrap_or(0)` instead of being returned as a typed
error, refuting the error-propagation half of the claim. -/
theorem claim_C7_counterexample :
    (TieredStorage.new_writable "accounts").file_size inaccessibleFS
      = Except.ok 0 := rfl

/-- C7 amended: `file_size()` returns `Ok 0` when the backing file does not
exist, `Ok` of the file's byte size when it exists and is accessible, and
`Ok 0` — never an error — on any other open/metadata failure: every failure
is collapsed to 0 by `unwrap_or(0)`. -/
theorem claim_C7_file_size (s : TieredStorage) (fs : FileSystem) :
    (fs s.path = FileState.absent → s.file_size fs = Except.ok 0) ∧
    (∀ f, fs s.path = FileState.present f →
      s.file_size fs = Except.ok (fileSizeBytes f)) ∧
    (fs s.path = FileState.inaccessible → s.file_size fs = Except.ok 0) ∧
    (∀ e, s.file_size fs ≠ Except.error e) := by
  refine ⟨?_, ?_, ?_, ?_⟩
  · intro h; simp [TieredStorage.file_size, h, Except.toOption]
  · intro f h; simp [TieredStorage.file_size, h, Except.toOption]
  · intro h; simp [TieredStorage.file_size, h, Except.toOption]
  · intro e h
    unfold TieredStorage.file_size at h
    exact Except.noConfusion h

/-- C7 witness: the amended theorem at a fresh handle over the empty
filesystem — the missing file reads back as size 0. -/
theorem claim_C7_file_size_witness :
    (TieredStorage.new_writable "accounts").file_size emptyFS
      = Except.ok 0 :=
  (claim_C7_file_size (TieredStorage.new_writable "accounts") emptyFS).1 rfl

/-- C8 counterexample: destroying a writable handle that was never written
does not remove a backing file — no file exists, so `fs::remove_file` fails
and the destructor panics (modelled as `none`) instead of performing the
removal the claim promises for the writable-only state. -/
theorem claim_C8_counterexample :
    (TieredStorage.new_writable "accounts").dropStorage emptyFS = none := rfl

/-- C8 amended: a handle whose backing file exists (in particular any sealed
handle) removes exactly that file on destruction, leaving every other path
untouched; destroying it again would panic, so the removal happens at most
once; a handle destroyed with cleanup skipped leaves the filesystem
untouched; and when the backing file is missing or inaccessible the
destructor panics rather than returning.  (A writable handle that was never
written has no backing file, so its destruction panics — see the
counterexample.) -/
theorem claim_C8_drop_cleanup (s : TieredStorage) (fs : FileSystem)
    (f : HotFile) (h : fs s.path = FileState.present f) :
    s.dropStorage fs = some (fs.update s.path FileState.absent) ∧
    (fs.update s.path FileState.absent) s.path = FileState.absent ∧
    (∀ q, q ≠ s.path → (fs.update s.path FileState.absent) q = fs q) ∧
    s.dropStorage (fs.update s.path FileState.absent) = none ∧
    s.dropSkipCleanup fs = fs ∧
    (∀ fs' : FileSystem, fs' s.path = FileState.inaccessible →
      s.dropStorage fs' = none) := by
  refine ⟨?_, ?_, ?_, ?_, rfl, ?_⟩
  · simp [TieredStorage.dropStorage, removeFile, h]
  · simp [FileSystem.update]
  · intro q hq; simp [FileSystem.update, hq]
  · simp [TieredStorage.dropStorage, removeFile, FileSystem.update]
  · intro fs' h'; simp [TieredStorage.dropStorage, removeFile, h']

/-- C8 witness: the amended theorem on a handle whose backing file exists
(a freshly written empty file), the existence hypothesis discharged by
`rfl`. -/
theorem claim_C8_drop_cleanup_witness :
    (TieredStorage.new_writable "accounts").dropStorage
        (emptyFS.update "accounts"
          (FileState.present (hotWrite [] 0 HOT_FORMAT)))
      = some ((emptyFS.update "accounts"
          (FileState.present (hotWrite [] 0 HOT_FORMAT))).update "accounts"
            FileState.absent) :=
  (claim_C8_drop_cleanup (TieredStorage.new_writable "accounts")
    (emptyFS.update "accounts" (FileState.present (hotWrite [] 0 HOT_FORMAT)))
    (hotWrite [] 0 HOT_FORMAT) rfl).1

/-- Upper bound on successful installs implied by the cell: at most one when
the cell is filled, none while it is empty. -/
def cellBound (st : RaceState) : Nat :=
  if st.cell.isSome then 1 else 0

/-- One interleaving step preserves the install-count invariant: the number
of threads that returned successfully never exceeds what the one-shot cell
allows. -/
lemma okCount_raceStep (p : Path) (b : List AccountRecord) (k : Nat)
    (st : RaceState) (t : Bool) (h : okCount st ≤ cellBound st) :
    okCount (raceStep p b k st t) ≤ cellBound (raceStep p b k st t) := by
  obtain ⟨cell, fs, pc1, pc2⟩ := st
  cases t with
  | true =>
    cases pc1 with
    | atCheck =>
      cases cell <;> simp_all [raceStep, writeStep, okCount, cellBound]
    | atWrite =>
      simp_all [raceStep, writeStep, okCount, cellBound]
    | atInstall =>
      cases hr : readerFromPath fs p with
      | ok r =>
        cases cell with
        | none =>
          by_cases h2 : pc2 = WritePC.returnedOk <;>
            simp_all [raceStep, writeStep, okCount, cellBound, hr]
        | some r0 =>
          simp_all [raceStep, writeStep, okCount, cellBound, hr]
      | error e =>
        simp_all [raceStep, writeStep, okCount, cellBound, hr]
    | returnedError e =>
      simp_all [raceStep, writeStep, okCount, cellBound]
    | returnedOk =>
      simp_all [raceStep, writeStep, okCount, cellBound]
    | panicked =>
      simp_all [raceStep, writeStep, okCount, cellBound]
  | false =>
    cases pc2 with
    | atCheck =>
      cases cell <;> simp_all [raceStep, writeStep, okCount, cellBound]
    | atWrite =>
      simp_all [raceStep, writeStep, okCount, cellBound]
    | atInstall =>
      cases hr : readerFromPath fs p with
      | ok r =>
        cases cell with
        | none =>
          by_cases h1 : pc1 = WritePC.returnedOk <;>
            simp_all [raceStep, writeStep, okCount, cellBound, hr]
        | some r0 =>
          simp_all [raceStep, writeStep, okCount, cellBound, hr]
      | error e =>
        simp_all [raceStep, writeStep, okCount, cellBound, hr]
    | returnedError e =>
      simp_all [raceStep, writeStep, okCount, cellBound]
    | returnedOk =>
      simp_all [raceStep, writeStep, okCount, cellBound]
    | panicked =>
      simp_all [raceStep, writeStep, okCount, cellBound]

/-- The install-count invariant holds along every schedule. -/
lemma okCount_raceRun (p : Path) (b : List AccountRecord) (k : Nat) :
    ∀ (sched : List Bool) (st : RaceState), okCount st ≤ cellBound st →
      okCount (raceRun p b k st sched) ≤ cellBound (raceRun p b k st sched) := by
  intro sched
  induction sched with
  | nil => intro st h; exact h
  | cons t rest ih =>
    intro st h
    exact ih (raceStep p b k st t) (okCount_raceStep p b k st t h)

/-- C9 counterexample: under the interleaving in which both callers pass the
`is_read_only` check before either installs, both perform the write pass;
the first installs the reader and returns `Ok`, while the second reaches
`reader.set(..).unwrap()` with the cell already filled and panics — it does
not fail with `AttemptToUpdateReadOnly` and it is not free of side effects,
refuting the claim for concurrent callers. -/
theorem claim_C9_counterexample :
    (raceRun "accounts" [] 0 (raceInit emptyFS) raceSchedule).pc1
        = WritePC.returnedOk ∧
    (raceRun "accounts" [] 0 (raceInit emptyFS) raceSchedule).pc2
        = WritePC.panicked := by
  constructor
  · rfl
  · rfl

/-- C9 amended: the one-shot cell does make the install itself race-free —
under every interleaving of two `write_accounts` calls, at most one caller
installs the reader and returns success; and any caller whose
`is_read_only` check runs after the reader is installed fails immediately
with `AttemptToUpdateReadOnly` carrying the handle's path, touching
neither the cell nor the filesystem.  (A caller whose check raced ahead of
the install still performs the write pass and then panics, per the
counterexample.) -/
theorem claim_C9_install_once (p : Path) (b : List AccountRecord) (k : Nat)
    (fs : FileSystem) (sched : List Bool) :
    okCount (raceRun p b k (raceInit fs) sched) ≤ 1 ∧
    (∀ st : RaceState, st.cell.isSome = true → st.pc2 = WritePC.atCheck →
      raceStep p b k st false
        = { st with
            pc2 := WritePC.returnedError
              (TieredStorageError.AttemptToUpdateReadOnly p) }) := by
  constructor
  · have h := okCount_raceRun p b k sched (raceInit fs)
      (by simp [okCount, raceInit, cellBound])
    refine le_trans h ?_
    unfold cellBound
    split <;> omega
  · intro st hcell hpc
    obtain ⟨cell, fs0, pc1, pc2⟩ := st
    simp only at hcell hpc
    subst hpc
    simp [raceStep, writeStep, hcell]

/-- C9 witness: the install-once theorem at the concrete racing schedule
(conjunct one needs no hypotheses; conjunct two is applied to the sealed
state the race produces, its hypotheses discharged by `rfl`). -/
theorem claim_C9_install_once_witness :
    okCount (raceRun "accounts" [] 0 (raceInit emptyFS) raceSchedule) ≤ 1 ∧
    (raceStep "accounts" [] 0
        { cell := some { file := hotWrite [] 0 HOT_FORMAT }, fs := emptyFS,
          pc1 := WritePC.returnedOk, pc2 := WritePC.atCheck } false).pc2
      = WritePC.returnedError
          (TieredStorageError.AttemptToUpdateReadOnly "accounts") := by
  obtain ⟨h1, h2⟩ := claim_C9_install_once "accounts" [] 0 emptyFS raceSchedule
  refine ⟨h1, ?_⟩
  rw [h2 { cell := some { file := hotWrite [] 0 HOT_FORMAT }, fs := emptyFS,
           pc1 := WritePC.returnedOk, pc2 := WritePC.atCheck } rfl rfl]

namespace Banking

/-- C10: `transition_to_pending` (from `Unprocessed`) and
`transition_to_unprocessed` (from `Pending`) leave the compute budget
details, the transaction cost and the forwarded flag unchanged; a newly
created state is `Unprocessed` with `forwarded = false`; and the invalid
transitions — `transition_to_pending` on `Pending`,
`transition_to_unprocessed` on `Unprocessed` — panic (modelled as `none`)
rather than return. -/
theorem claim_C10_transition_frame (ttl t : SanitizedTransactionTTL)
    (cbd : ComputeBudgetDetails) (tc : TransactionCost) (f : Bool)
    (s : TransactionState) :
    (TransactionState.new ttl cbd tc
        = TransactionState.Unprocessed ttl cbd tc false) ∧
    ((TransactionState.new ttl cbd tc).forwarded = false) ∧
    (∀ out, s.transition_to_pending = some out →
      out.2.compute_budget_details = s.compute_budget_details ∧
      out.2.transaction_cost = s.transaction_cost ∧
      out.2.forwarded = s.forwarded) ∧
    (∀ s2, s.transition_to_unprocessed t = some s2 →
      s2.compute_budget_details = s.compute_budget_details ∧
      s2.transaction_cost = s.transaction_cost ∧
      s2.forwarded = s.forwarded) ∧
    ((TransactionState.Pending cbd tc f).transition_to_pending = none) ∧
    ((TransactionState.Unprocessed ttl cbd tc f).transition_to_unprocessed t
        = none) := by
  refine ⟨rfl, rfl, ?_, ?_, rfl, rfl⟩
  · intro out h
    cases s with
    | Unprocessed ttl0 cbd0 tc0 f0 =>
      simp only [TransactionState.transition_to_pending, Option.some_inj] at h
      subst h
      exact ⟨rfl, rfl, rfl⟩
    | Pending cbd0 tc0 f0 =>
      exact Option.noConfusion h
  · intro s2 h
    cases s with
    | Unprocessed ttl0 cbd0 tc0 f0 =>
      exact Option.noConfusion h
    | Pending cbd0 tc0 f0 =>
      simp only [TransactionState.transition_to_unprocessed,
        Option.some_inj] at h
      subst h
      exact ⟨rfl, rfl, rfl⟩

/-- C10 witness: the frame theorem at a concrete state — a round trip
through `Pending` and back preserves the bookkeeping, with the transition
hypotheses discharged by `rfl`. -/
theorem claim_C10_transition_frame_witness :
    (TransactionState.Pending sampleCBD sampleCost true).compute_budget_details
      = (TransactionState.Unprocessed sampleTTL sampleCBD sampleCost
          true).compute_budget_details ∧
    (TransactionState.Pending sampleCBD sampleCost true).forwarded
      = (TransactionState.Unprocessed sampleTTL sampleCBD sampleCost
          true).forwarded := by
  obtain ⟨_, _, hp, _, _, _⟩ :=
    claim_C10_transition_frame sampleTTL sampleTTL sampleCBD sampleCost true
      (TransactionState.Unprocessed sampleTTL sampleCBD sampleCost true)
  obtain ⟨hc, _, hf⟩ :=
    hp (sampleTTL, TransactionState.Pending sampleCBD sampleCost true) rfl
  exact ⟨hc, hf⟩

end Banking

end SolanaSpec
